import Mathlib

/-!
Verification development for the weekly-recommendations system.

Shallow embedding of the temporal cycle and eligibility engine:
the weekly cycle state machine (WeeklyAutomation, src/services/weeklyAutomation.js),
submission intake (EmailProcessor, src/services/emailProcessor.js),
the invitation lifecycle (InvitationService, src/services/invitationService.js),
and the inbound-email webhook dispatch (src/routes/webhooks.js).

Modelling conventions:
- the Prisma store becomes an explicit `Store` record of entity lists;
  creates append to a list, updates map over a list by key;
- timestamps are `Nat` (the store carries a fixed current instant `now`,
  standing for `new Date()`);
- statuses are the literal strings used by the source ("open", "closed",
  "compiled", "pending", "accepted", "expired");
- every store mutation and outbound email appends an `Event` to a trace,
  so ordering and notification counts are observable;
- the free-text submission parser (parseSubmission, a set of regexes the
  spec declares out of scope) is a parameter `parse`; the invite-command
  matcher parseInviteCommand is embedded faithfully since claims depend
  on it;
- environment configuration is fixed at the source defaults
  (STREAK_REQUIRED_FOR_INVITE = 4, MAX_INVITES_PER_USER = 5,
  INVITE_EXPIRY_DAYS = 7).
-/

/-- Streak threshold for invite eligibility; env STREAK_REQUIRED_FOR_INVITE, default 4. -/
def streakRequired : Nat := 4

/-- Maximum invitations per member; env MAX_INVITES_PER_USER, default 5. -/
def maxInvitesPerUser : Nat := 5

/-- Invitation expiry offset; env INVITE_EXPIRY_DAYS, default 7 (time units are abstract). -/
def inviteExpiryDays : Nat := 7

/-- Week (cycle) record: id, weekNumber (YYYYWW) and status string. -/
structure Week where
  id : Nat
  weekNumber : Nat
  status : String
deriving DecidableEq, Repr

/-- Submission row: member reference, cycle reference and the three text fields. -/
structure Submission where
  userId : Nat
  weekId : Nat
  recommendation : String
  reasons : String
  message : String
deriving DecidableEq, Repr

/-- Member record: identity, activation flag and lifetime invitations-sent counter. -/
structure User where
  id : Nat
  email : String
  isActive : Bool
  inviteCount : Nat
deriving DecidableEq, Repr

/-- Streak record per member. -/
structure UserStreak where
  userId : Nat
  currentStreak : Nat
  longestStreak : Nat
  lastSubmissionWeek : Option Nat
  canInvite : Bool
  inviteEligibleSince : Option Nat
deriving DecidableEq, Repr

/-- Invitation record. -/
structure Invite where
  id : Nat
  inviterId : Nat
  inviteeEmail : String
  inviteToken : String
  status : String
  expiresAt : Nat
  acceptedAt : Option Nat
deriving DecidableEq, Repr

/-- Observable events: store status writes, per-member streak updates
(with the didSubmit argument) and outbound emails by kind. -/
inductive Event where
  | setWeekStatus (weekId : Nat) (status : String)
  | streakUpdate (userId : Nat) (didSubmit : Bool)
  | emailSent (kind : String) (recipient : String)
deriving DecidableEq, Repr

/-- Store state: the persistent entities plus the current instant, an id
generator and the observable trace. -/
structure Store where
  weeks : List Week
  users : List User
  submissions : List Submission
  streaks : List UserStreak
  invites : List Invite
  now : Nat
  nextId : Nat
  trace : List Event
deriving DecidableEq, Repr

/-- Generic operation result, mirroring the {success, error} objects of the source. -/
structure OpResult where
  success : Bool
  error : Option String
deriving DecidableEq, Repr

/-- Append an outbound email event. -/
def appendEmail (s : Store) (kind recipient : String) : Store :=
  { s with trace := s.trace ++ [Event.emailSent kind recipient] }

/-- prisma.week.update by id, setting the status field. -/
def weekUpdateStatus (s : Store) (weekId : Nat) (status : String) : Store :=
  { s with
    weeks := s.weeks.map (fun w => if w.id = weekId then { w with status := status } else w),
    trace := s.trace ++ [Event.setWeekStatus weekId status] }

/-- prisma.user.findUnique by email. -/
def findUserByEmail (s : Store) (email : String) : Option User :=
  s.users.find? (fun u => u.email == email)

/-- prisma.user.findUnique by id. -/
def findUserById (s : Store) (id : Nat) : Option User :=
  s.users.find? (fun u => u.id == id)

/-- prisma.userStreak.findUnique by userId. -/
def findStreak (s : Store) (userId : Nat) : Option UserStreak :=
  s.streaks.find? (fun st => st.userId == userId)

/-- prisma.submission.findUnique on the (userId, weekId) pair. -/
def findSubmission (s : Store) (userId weekId : Nat) : Option Submission :=
  s.submissions.find? (fun sub => sub.userId == userId && sub.weekId == weekId)

/-- prisma.week.findFirst where status open (weeks are listed in creation order). -/
def findOpenWeek (s : Store) : Option Week :=
  s.weeks.find? (fun w => w.status == "open")

/-- prisma.week.findFirst where status open orderBy createdAt desc,
as used by submission intake: latest-created open week first. -/
def findCurrentWeek (s : Store) : Option Week :=
  s.weeks.reverse.find? (fun w => w.status == "open")

/-- prisma.invite.findUnique by token. -/
def findInviteByToken (s : Store) (inviteToken : String) : Option Invite :=
  s.invites.find? (fun i => i.inviteToken == inviteToken)

/-- prisma.invite.update by id. -/
def updateInvite (s : Store) (id : Nat) (f : Invite → Invite) : Store :=
  { s with invites := s.invites.map (fun i => if i.id = id then f i else i) }

/-- Number of weeks whose status is open. -/
def countOpenWeeks (s : Store) : Nat :=
  (s.weeks.filter (fun w => w.status == "open")).length

/-- Invariant of the cycle manager: at most one cycle has status open. -/
def atMostOneOpen (s : Store) : Prop :=
  countOpenWeeks s ≤ 1

/-- Modelled from the spec: the pure eligibility function of section 3,
current streak at least the threshold AND invitations sent below the cap.
This is the comparison target for the recompute sites in the code. -/
def specEligibility (currentStreak invitationsSent : Nat) : Bool :=
  decide (streakRequired ≤ currentStreak) && decide (invitationsSent < maxInvitesPerUser)

namespace EmailProcessor

/-- EmailProcessor.isConsecutiveWeek: raw integer check currentWeek = lastWeek + 1.
A JS falsy lastWeek (null or 0) returns false. -/
def isConsecutiveWeek (lastWeek : Option Nat) (currentWeek : Nat) : Bool :=
  match lastWeek with
  | none => false
  | some lw => if lw = 0 then false else decide (currentWeek = lw + 1)

/-- EmailProcessor.updateUserStreak: the submission-intake streak update.
Note that its canInvite recompute checks only the streak threshold. -/
def updateUserStreak (s : Store) (userId : Nat) (currentWeekNumber : Nat) : Store :=
  match findStreak s userId with
  | none =>
    { s with
      streaks := s.streaks ++ [⟨userId, 1, 1, some currentWeekNumber, false, none⟩],
      trace := s.trace ++ [Event.streakUpdate userId true] }
  | some userStreak =>
    let isConsecutive := isConsecutiveWeek userStreak.lastSubmissionWeek currentWeekNumber
    let newCurrentStreak := if isConsecutive then userStreak.currentStreak + 1 else 1
    let newLongestStreak := max userStreak.longestStreak newCurrentStreak
    let canInvite := decide (streakRequired ≤ newCurrentStreak)
    let inviteEligibleSince :=
      if canInvite && !userStreak.canInvite then some s.now else userStreak.inviteEligibleSince
    let s1 :=
      { s with
        streaks := s.streaks.map (fun st =>
          if st.userId = userId then
            { st with
              currentStreak := newCurrentStreak,
              longestStreak := newLongestStreak,
              lastSubmissionWeek := some currentWeekNumber,
              canInvite := canInvite,
              inviteEligibleSince := inviteEligibleSince }
          else st),
        trace := s.trace ++ [Event.streakUpdate userId true] }
    if canInvite && !userStreak.canInvite then
      match findUserById s userId with
      | some user => appendEmail s1 "inviteEligibility" user.email
      | none => s1
    else s1

end EmailProcessor

/-- Parsed free-text fields, as returned by the external submission parser. -/
structure ParsedSubmission where
  recommendation : Option String
  reasonWhy : Option String
  digressions : Option String
deriving DecidableEq, Repr

/-- Validated submission payload. -/
structure SubmissionData where
  recommendation : String
  reasonWhy : String
  digressions : String
deriving DecidableEq, Repr

/-- EmailProcessor.validateSubmissionFormat: the Joi schema requiring all three
fields with length bounds 5..500, 10..1000 and 5..1000. -/
def validateSubmissionFormat (p : ParsedSubmission) : Option SubmissionData :=
  match p.recommendation, p.reasonWhy, p.digressions with
  | some r, some w, some d =>
    if 5 ≤ r.length && r.length ≤ 500
        && 10 ≤ w.length && w.length ≤ 1000
        && 5 ≤ d.length && d.length ≤ 1000 then
      some ⟨r, w, d⟩
    else none
  | _, _, _ => none

namespace EmailProcessor

/-- EmailProcessor.processInboundEmail. The sender argument is the result of
extractEmail on the from header (extraction of the address from free text is
out of scope per the spec); `parse` is the parseSubmission regex step. -/
def processInboundEmail (parse : String → ParsedSubmission) (s : Store)
    (sender : Option String) (body : String) : Store × OpResult :=
  match sender with
  | none => (s, ⟨false, some "Invalid sender email"⟩)
  | some senderEmail =>
    match findUserByEmail s senderEmail with
    | none => (appendEmail s "errorEmail" senderEmail, ⟨false, some "Unknown user"⟩)
    | some user =>
      if !user.isActive then
        (appendEmail s "errorEmail" senderEmail, ⟨false, some "Unknown user"⟩)
      else
        match findCurrentWeek s with
        | none => (appendEmail s "errorEmail" senderEmail, ⟨false, some "No active week"⟩)
        | some currentWeek =>
          match findSubmission s user.id currentWeek.id with
          | some _ => (appendEmail s "errorEmail" senderEmail, ⟨false, some "Already submitted"⟩)
          | none =>
            match validateSubmissionFormat (parse body) with
            | none => (appendEmail s "formatError" senderEmail, ⟨false, some "Invalid format"⟩)
            | some data =>
              let s1 :=
                { s with submissions := s.submissions ++
                    [⟨user.id, currentWeek.id, data.recommendation, data.reasonWhy, data.digressions⟩] }
              let s2 := updateUserStreak s1 user.id currentWeek.weekNumber
              let s3 := appendEmail s2 "submissionConfirmation" senderEmail
              (s3, ⟨true, none⟩)

end EmailProcessor

namespace WeeklyAutomation

/-- WeeklyAutomation.isConsecutiveWeek: dual-branch adjacency with year-boundary
handling. A JS falsy lastWeek (null or 0) returns false. -/
def isConsecutiveWeek (lastWeek : Option Nat) (currentWeek : Nat) : Bool :=
  match lastWeek with
  | none => false
  | some lw =>
    if lw = 0 then false
    else
      let lastYear := lw / 100
      let lastWeekNum := lw % 100
      let currentYear := currentWeek / 100
      let currentWeekNum := currentWeek % 100
      if lastYear = currentYear then
        decide (currentWeekNum = lastWeekNum + 1)
      else if currentYear = lastYear + 1 then
        decide (52 ≤ lastWeekNum) && decide (currentWeekNum = 1)
      else
        false

/-- WeeklyAutomation.updateUserStreak: the cycle-close streak update. The streak
argument is the snapshot loaded with the user at the start of
updateAllUserStreaks (include streak). -/
def updateUserStreak (s : Store) (user : User) (streak : Option UserStreak)
    (weekNumber : Nat) (didSubmit : Bool) : Store :=
  match streak with
  | none =>
    { s with
      streaks := s.streaks ++
        [⟨user.id, if didSubmit then 1 else 0, if didSubmit then 1 else 0,
          if didSubmit then some weekNumber else none, false, none⟩],
      trace := s.trace ++ [Event.streakUpdate user.id didSubmit] }
  | some streak =>
    let newCurrentStreak :=
      if didSubmit then
        if isConsecutiveWeek streak.lastSubmissionWeek weekNumber then streak.currentStreak + 1 else 1
      else 0
    let newLongestStreak := max streak.longestStreak newCurrentStreak
    let canInvite := decide (streakRequired ≤ newCurrentStreak) && decide (user.inviteCount < maxInvitesPerUser)
    let inviteEligibleSince :=
      if canInvite && !streak.canInvite then some s.now else streak.inviteEligibleSince
    let s1 :=
      { s with
        streaks := s.streaks.map (fun st =>
          if st.userId = user.id then
            { st with
              currentStreak := newCurrentStreak,
              longestStreak := newLongestStreak,
              lastSubmissionWeek := if didSubmit then some weekNumber else streak.lastSubmissionWeek,
              canInvite := canInvite,
              inviteEligibleSince := inviteEligibleSince }
          else st),
        trace := s.trace ++ [Event.streakUpdate user.id didSubmit] }
    if canInvite && !streak.canInvite then appendEmail s1 "inviteEligibility" user.email else s1

/-- WeeklyAutomation.updateAllUserStreaks: loads every active user together with
its streak snapshot, then updates each in turn with didSubmit telling whether
the user appears among the submitters of the closing week. -/
def updateAllUserStreaks (s : Store) (weekNumber : Nat) (submissions : List Submission) : Store :=
  let allUsers := s.users.filter (fun u => u.isActive)
  let submittedUserIds := submissions.map (fun sub => sub.userId)
  (allUsers.map (fun u => (u, findStreak s u.id))).foldl
    (fun acc p => updateUserStreak acc p.1 p.2 weekNumber (submittedUserIds.contains p.1.id)) s

/-- WeeklyAutomation.startNewWeek. The weekNumber argument stands for the
YYYYWW value the source derives from the current instant via moment
(calendar input is external). Sends the weekly prompt to active users. -/
def startNewWeek (s : Store) (weekNumber : Nat) : Store × OpResult :=
  match findOpenWeek s with
  | some _ => (s, ⟨false, some "Week already open"⟩)
  | none =>
    let newWeek : Week := ⟨s.nextId, weekNumber, "open"⟩
    let s1 := { s with weeks := s.weeks ++ [newWeek], nextId := s.nextId + 1 }
    let activeUsers := s1.users.filter (fun u => u.isActive)
    let s2 := { s1 with trace := s1.trace ++ activeUsers.map (fun u => Event.emailSent "weeklyPrompt" u.email) }
    (s2, ⟨true, none⟩)

/-- WeeklyAutomation.closeWeekAndCompile. Closes the open week; with zero
submissions it marks the week compiled at once and returns; otherwise it sends
the compilation to participants, marks the week compiled, and then updates the
streaks of all users. -/
def closeWeekAndCompile (s : Store) : Store × OpResult :=
  match findOpenWeek s with
  | none => (s, ⟨false, some "No open week"⟩)
  | some currentWeek =>
    let subs := s.submissions.filter (fun sub => sub.weekId == currentWeek.id)
    let s1 := weekUpdateStatus s currentWeek.id "closed"
    if subs.isEmpty then
      (weekUpdateStatus s1 currentWeek.id "compiled", ⟨true, none⟩)
    else
      let participants := subs.filterMap (fun sub => findUserById s sub.userId)
      let s2 := { s1 with trace := s1.trace ++ participants.map (fun u => Event.emailSent "weeklyCompilation" u.email) }
      let s3 := weekUpdateStatus s2 currentWeek.id "compiled"
      let s4 := updateAllUserStreaks s3 currentWeek.weekNumber subs
      (s4, ⟨true, none⟩)

/-- WeeklyAutomation.manualCompileWeek: with a weekId, compiles that specific
week out of band (guarding an already compiled week); with none, falls back to
closeWeekAndCompile. -/
def manualCompileWeek (s : Store) (weekId : Option Nat) : Store × OpResult :=
  match weekId with
  | none => closeWeekAndCompile s
  | some id =>
    match s.weeks.find? (fun w => w.id == id) with
    | none => (s, ⟨false, some "Week not found"⟩)
    | some week =>
      if week.status == "compiled" then
        (s, ⟨false, some "Week already compiled"⟩)
      else
        let subs := s.submissions.filter (fun sub => sub.weekId == week.id)
        let participants := subs.filterMap (fun sub => findUserById s sub.userId)
        let s1 :=
          if subs.isEmpty then s
          else { s with trace := s.trace ++ participants.map (fun u => Event.emailSent "weeklyCompilation" u.email) }
        (weekUpdateStatus s1 id "compiled", ⟨true, none⟩)

end WeeklyAutomation

/-- Character class of the JS regex whitespace \s (restricted to the ASCII
whitespace characters relevant to email bodies). -/
def isSpaceChar (c : Char) : Bool :=
  c = ' ' || c = '\t' || c = '\n' || c = '\r' || c = '\x0b' || c = '\x0c'

/-- Character class [^\s@] used by the email patterns of the source. -/
def emailTokenChar (c : Char) : Bool :=
  !(isSpaceChar c) && c != '@'

/-- Helper for the domain part of the email patterns: some position holds a
dot with at least one further character after it. -/
def hasDotThenChar : List Char → Bool
  | [] => false
  | c :: rest => (c = '.' && !rest.isEmpty) || hasDotThenChar rest

/-- Case-insensitive literal matcher: strips the given lowercase literal from
the front of the input, comparing lowercased characters. -/
def stripLiteralCI : List Char → List Char → Option (List Char)
  | [], l => some l
  | _, [] => none
  | p :: ps, c :: cs => if c.toLower = p then stripLiteralCI ps cs else none

namespace InvitationService

/-- Result of parseInviteCommand: the isInviteCommand flag and the captured
invitee email (empty when no command is present). -/
structure InviteCommand where
  isInviteCommand : Bool
  email : String
deriving DecidableEq, Repr

/-- Matcher for the invite pattern at one position of the body: the literal
INVITE: (case-insensitive), optional whitespace, then an email of shape
[^\s@]+ at [^\s@]+ dot [^\s@]+; returns the captured email characters. -/
def matchInviteAt (l : List Char) : Option (List Char) :=
  match stripLiteralCI ("invite:".toList) l with
  | none => none
  | some rest =>
    let afterSpaces := rest.dropWhile isSpaceChar
    let localPart := afterSpaces.takeWhile emailTokenChar
    match afterSpaces.drop localPart.length with
    | '@' :: afterAt =>
      let domain := afterAt.takeWhile emailTokenChar
      if localPart.isEmpty then none
      else
        match domain with
        | [] => none
        | _ :: dtail =>
          if hasDotThenChar dtail then some (localPart ++ '@' :: domain) else none
    | _ => none

/-- Scan of every position of the body for the invite pattern, mirroring an
unanchored regex search. -/
def findInviteEmail : List Char → Option (List Char)
  | [] => none
  | c :: rest =>
    match matchInviteAt (c :: rest) with
    | some e => some e
    | none => findInviteEmail rest

/-- InvitationService.parseInviteCommand: searches the body for
INVITE: followed by an email address and captures it lowercased. -/
def parseInviteCommand (emailBody : String) : InviteCommand :=
  match findInviteEmail emailBody.toList with
  | some cs => ⟨true, String.mk (cs.map Char.toLower)⟩
  | none => ⟨false, ""⟩

/-- InvitationService.isValidEmail: the anchored pattern
[^\s@]+ at [^\s@]+ dot [^\s@]+ over the whole string. -/
def isValidEmail (email : String) : Bool :=
  let l := email.toList
  let localPart := l.takeWhile emailTokenChar
  match l.drop localPart.length with
  | '@' :: afterAt =>
    !localPart.isEmpty && afterAt.all emailTokenChar &&
      (match afterAt with
       | [] => false
       | _ :: dtail => hasDotThenChar dtail)
  | _ => false

/-- Eligibility check result, mirroring the {eligible, reason, invitesRemaining}
object of the source (reason texts abbreviated). -/
structure EligibilityResult where
  eligible : Bool
  reason : Option String
  invitesRemaining : Nat
deriving DecidableEq, Repr

/-- Live invitation usage: sent invites of the user with status pending or
accepted, as loaded by the sentInvites relation filter of the source. -/
def liveInviteCount (s : Store) (userId : Nat) : Nat :=
  (s.invites.filter (fun i => i.inviterId == userId
      && (i.status == "pending" || i.status == "accepted"))).length

/-- InvitationService.checkInviteEligibility: fails closed on a missing or
inactive user, a missing streak, a streak below the threshold, or invitation
usage at the cap. -/
def checkInviteEligibility (s : Store) (userId : Nat) : EligibilityResult :=
  match findUserById s userId with
  | none => ⟨false, some "User not found or inactive", 0⟩
  | some user =>
    if !user.isActive then ⟨false, some "User not found or inactive", 0⟩
    else
      match findStreak s user.id with
      | none => ⟨false, some "No submission history", 0⟩
      | some streak =>
        if streak.currentStreak < streakRequired then
          ⟨false, some "Requires consecutive weeks", 0⟩
        else if maxInvitesPerUser ≤ liveInviteCount s userId then
          ⟨false, some "Maximum invites per user reached", 0⟩
        else
          ⟨true, none, maxInvitesPerUser - liveInviteCount s userId⟩

/-- InvitationService.sendInvitation: re-validates eligibility, normalizes the
invitee email, guards against existing members and unexpired pending
invitations, then persists a pending invitation with a fresh token, sends the
invitation email and increments the lifetime counter of the inviter. The
token of crypto.randomBytes is modelled by a fresh deterministic string. -/
def sendInvitation (s : Store) (inviterId : Nat) (inviteeEmail : String) : Store × OpResult :=
  let eligibility := checkInviteEligibility s inviterId
  if !eligibility.eligible then (s, ⟨false, eligibility.reason⟩)
  else
    let cleanEmail := (String.mk (inviteeEmail.toList.map Char.toLower)).trim
    if !isValidEmail cleanEmail then (s, ⟨false, some "Invalid email address"⟩)
    else
      match findUserByEmail s cleanEmail with
      | some _ => (s, ⟨false, some "User is already a member"⟩)
      | none =>
        match s.invites.find? (fun i => i.inviteeEmail == cleanEmail
            && i.status == "pending" && s.now < i.expiresAt) with
        | some _ => (s, ⟨false, some "Pending invitation already exists for this email"⟩)
        | none =>
          let inviteToken := "tok" ++ toString s.nextId
          let expiresAt := s.now + inviteExpiryDays
          let invite : Invite := ⟨s.nextId, inviterId, cleanEmail, inviteToken, "pending", expiresAt, none⟩
          let s1 := { s with invites := s.invites ++ [invite], nextId := s.nextId + 1 }
          let s2 := appendEmail s1 "invitation" cleanEmail
          let s3 := { s2 with users := s2.users.map (fun u =>
            if u.id = inviterId then { u with inviteCount := u.inviteCount + 1 } else u) }
          (s3, ⟨true, none⟩)

/-- InvitationService.processInviteCommand: resolves the inviter by sender
email, delegates to sendInvitation and notifies the inviter of the outcome. -/
def processInviteCommand (s : Store) (fromEmail : String) (inviteeEmail : String) : Store × OpResult :=
  match findUserByEmail s fromEmail with
  | none => (s, ⟨false, some "Inviter not found"⟩)
  | some inviter =>
    let r := sendInvitation s inviter.id inviteeEmail
    (appendEmail r.1 "errorEmail" fromEmail, r.2)

/-- Result of processInviteAcceptance: outcome plus, on success, the id of the
newly created member and the inviter reference of the invitation. -/
structure AcceptResult where
  success : Bool
  error : Option String
  newUserId : Option Nat
  inviterId : Option Nat
deriving DecidableEq, Repr

/-- InvitationService.processInviteAcceptance: token lookup, pending guard,
expiry transition, already-member guard, then member plus zero-streak creation
and the accepted transition. Profile fields of the form are not part of the
modelled member record. -/
def processInviteAcceptance (s : Store) (inviteToken : String) : Store × AcceptResult :=
  match findInviteByToken s inviteToken with
  | none => (s, ⟨false, some "Invalid invitation link", none, none⟩)
  | some invite =>
    if invite.status != "pending" then
      (s, ⟨false, some "Invitation already processed", none, none⟩)
    else if invite.expiresAt < s.now then
      (updateInvite s invite.id (fun i => { i with status := "expired" }),
       ⟨false, some "Invitation has expired", none, none⟩)
    else
      match findUserByEmail s invite.inviteeEmail with
      | some _ =>
        (updateInvite s invite.id (fun i => { i with status := "accepted", acceptedAt := some s.now }),
         ⟨false, some "User already exists", none, none⟩)
      | none =>
        let newUser : User := ⟨s.nextId, invite.inviteeEmail, true, 0⟩
        let s1 := { s with users := s.users ++ [newUser], nextId := s.nextId + 1 }
        let s2 := { s1 with streaks := s1.streaks ++ [⟨newUser.id, 0, 0, none, false, none⟩] }
        let s3 := updateInvite s2 invite.id (fun i => { i with status := "accepted", acceptedAt := some s.now })
        (s3, ⟨true, none, some newUser.id, some invite.inviterId⟩)

/-- InvitationService.checkAllUsersEligibility: the daily sweep; recomputes the
flag for every active user with a streak from the live invitation usage and
corrects drift, notifying on a false-to-true flip. -/
def checkAllUsersEligibility (s : Store) : Store :=
  let users := s.users.filter (fun u => u.isActive)
  (users.map (fun u => (u, findStreak s u.id, liveInviteCount s u.id))).foldl
    (fun acc p =>
      match p.2.1 with
      | none => acc
      | some streak =>
        let shouldBeEligible := decide (streakRequired ≤ streak.currentStreak)
          && decide (p.2.2 < maxInvitesPerUser)
        if shouldBeEligible != streak.canInvite then
          let acc1 := { acc with streaks := acc.streaks.map (fun st =>
            if st.userId = p.1.id then
              { st with
                canInvite := shouldBeEligible,
                inviteEligibleSince :=
                  if shouldBeEligible && !streak.canInvite then some acc.now
                  else streak.inviteEligibleSince }
            else st) }
          if shouldBeEligible && !streak.canInvite then
            appendEmail acc1 "inviteEligibility" p.1.email
          else acc1
        else acc)
    s

end InvitationService

namespace Webhooks

/-- Branch taken by the inbound-email route for one email. -/
inductive RouteType where
  | invite
  | submission
deriving DecidableEq, Repr

/-- Entry pushed to the results list of the route for one processed email. -/
structure RouteResult where
  success : Bool
  routeType : Option RouteType
  error : Option String
deriving DecidableEq, Repr

/-- Per-email handling of the inbound-email webhook: extract the sender (the
extraction itself is external, its result is the sender argument), then route
the body to the invite command processor when parseInviteCommand matches and
to the submission processor otherwise. -/
def handleOneEmail (parse : String → ParsedSubmission) (s : Store)
    (sender : Option String) (body : String) : Store × RouteResult :=
  match sender with
  | none => (s, ⟨false, none, some "Invalid sender"⟩)
  | some senderEmail =>
    let inviteCommand := InvitationService.parseInviteCommand body
    if inviteCommand.isInviteCommand then
      let r := InvitationService.processInviteCommand s senderEmail inviteCommand.email
      (r.1, ⟨r.2.success, some RouteType.invite, r.2.error⟩)
    else
      let r := EmailProcessor.processInboundEmail parse s (some senderEmail) body
      (r.1, ⟨r.2.success, some RouteType.submission, r.2.error⟩)

end Webhooks

/-- Number of eligibility-granted notifications in the trace. -/
def countEligibilityEmails (s : Store) : Nat :=
  (s.trace.filter (fun e => match e with
    | Event.emailSent kind _ => kind == "inviteEligibility"
    | _ => false)).length

/-- Parser stub for concrete scenarios: a fixed body that passes the Joi
format validation (field lengths 6, 11 and 6). -/
def fixedParse : String → ParsedSubmission :=
  fun _ => ⟨some "abcdef", some "abcdefghijk", some "abcdef"⟩

/-- Initial store of the C1 scenario: one active member, no streak record,
invitations sent far below the cap. -/
def c1Store : Store :=
  ⟨[], [⟨1, "member@example.com", true, 0⟩], [], [], [], 100, 10, []⟩

/-- One full cycle of the C1 scenario: the week opens, the member submits
through the inbound-email path (which runs the intake streak update), and the
week is closed and compiled (which runs the cycle-close streak update). -/
def c1Cycle (weekNumber : Nat) (s : Store) : Store :=
  let s1 := (WeeklyAutomation.startNewWeek s weekNumber).1
  let s2 := (EmailProcessor.processInboundEmail fixedParse s1 (some "member@example.com") "body").1
  (WeeklyAutomation.closeWeekAndCompile s2).1

/-- Store after the member submitted in cycles 202401 through 202404, each
cycle closed after the submission. -/
def c1Final : Store :=
  c1Cycle 202404 (c1Cycle 202403 (c1Cycle 202402 (c1Cycle 202401 c1Store)))

/-- Store of the C2 counter-scenario: an active member whose lifetime
invitation counter already equals the cap, with a current streak of 3 about to
reach the threshold through the submission-intake path. -/
def c2Store : Store :=
  ⟨[], [⟨1, "capped@example.com", true, 5⟩], [], [⟨1, 3, 3, some 202401, false, none⟩], [], 100, 10, []⟩

/-- Result of the submission-intake streak update on the capped member. -/
def c2After : Store :=
  EmailProcessor.updateUserStreak c2Store 1 202402

/-- Store of the C5 counterexample: one open week with zero submissions and
one active member holding a live streak of 4. -/
def c5Store : Store :=
  ⟨[⟨1, 202405, "open"⟩], [⟨1, "member@example.com", true, 0⟩], [],
   [⟨1, 4, 4, some 202404, false, none⟩], [], 100, 10, []⟩

/-- Store for the C5 amended-claim witness: one open week with one submission
by the single active member. -/
def c5SubStore : Store :=
  ⟨[⟨1, 202405, "open"⟩], [⟨1, "member@example.com", true, 0⟩],
   [⟨1, 1, "abcdef", "abcdefghijk", "abcdef"⟩],
   [⟨1, 2, 2, some 202404, false, none⟩], [], 100, 10, []⟩

/-- Store of the C6 failing input: one open week with one submission by the
single active member. -/
def c6Store : Store :=
  ⟨[⟨1, 202405, "open"⟩], [⟨1, "member@example.com", true, 0⟩],
   [⟨1, 1, "abcdef", "abcdefghijk", "abcdef"⟩],
   [⟨1, 2, 2, some 202404, false, none⟩], [], 100, 10, []⟩

/-- Store for the C8 witness: one open week and one active member. -/
def c8Store : Store :=
  ⟨[⟨1, 202401, "open"⟩], [⟨1, "membereight@example.com", true, 0⟩], [], [], [], 100, 10, []⟩

/-- Store for the C9 witness: one pending invitation already past expiry. -/
def c9Store : Store :=
  ⟨[], [], [], [], [⟨1, 2, "invitee@example.com", "tokA", "pending", 50, none⟩], 100, 10, []⟩

/-- Store and body for the C10 witness: the body carries both the three
submission fields and an INVITE command. -/
def c10Store : Store :=
  ⟨[⟨1, 202401, "open"⟩], [⟨1, "member@example.com", true, 0⟩], [], [], [], 100, 10, []⟩

def c10Body : String :=
  "RECOMMENDATION: abcdef\nREASON WHY: abcdefghijk\nDIGRESSIONS: abcdef\nINVITE: friend@example.com"

/-- C1. The four-cycle streak scenario (202401..202404, threshold 4, cap not
reached) under the actual update paths of the program: the intake path
(EmailProcessor.updateUserStreak) runs at each submission and the close path
(WeeklyAutomation.updateAllUserStreaks) runs at each cycle close. After the
close of cycle 202404 the streak record holds current = 1 (the close-path
update for week W sees lastSubmissionWeek already equal to W and resets the
count), the invite-eligibility flag is false, and no eligibility-granted
notification was ever emitted — diverging from the claimed current = 4, flag
true and exactly one notification. -/
theorem c1_scenario_code_result :
    findStreak c1Final 1 = some ⟨1, 1, 2, some 202404, false, none⟩
    ∧ countEligibilityEmails c1Final = 0 := by
  decide

/-- C2. The submission-intake recompute site disagrees with the pure
eligibility function: for a member whose lifetime invitation counter is at the
cap (5) and whose streak reaches the threshold (4) at intake,
EmailProcessor.updateUserStreak stores canInvite = true and emits an
eligibility-granted notification, while the pure function of the spec gives
false because invitationsSent is not below the cap. -/
theorem c2_intake_site_ignores_cap :
    findStreak c2After 1 = some ⟨1, 4, 4, some 202402, true, some 100⟩
    ∧ specEligibility 4 5 = false
    ∧ countEligibilityEmails c2After = 1 := by
  decide

/-- C4. The two adjacency implementations disagree across the year boundary:
at the pair (202452, 202501) EmailProcessor.isConsecutiveWeek (raw integer
subtraction) returns false while WeeklyAutomation.isConsecutiveWeek (the
dual-branch rule) returns true, so streak continuity decided on the intake
path does not route through the dual-branch rule. -/
theorem c4_adjacency_sites_disagree :
    EmailProcessor.isConsecutiveWeek (some 202452) 202501 = false
    ∧ WeeklyAutomation.isConsecutiveWeek (some 202452) 202501 = true := by
  decide

/-- C5 counterexample. Closing an open cycle with zero submissions and one
active member performs no streak update at all: the streak list is unchanged
(the live streak of 4 is not reset), the trace holds only the two status
writes, yet the cycle ends compiled and the call succeeds — refuting the claim
that the streak update runs for every active member even with zero
submissions. -/
theorem c5_zero_submissions_no_streak_update :
    (WeeklyAutomation.closeWeekAndCompile c5Store).1.streaks = c5Store.streaks
    ∧ (WeeklyAutomation.closeWeekAndCompile c5Store).1.trace =
        [Event.setWeekStatus 1 "closed", Event.setWeekStatus 1 "compiled"]
    ∧ (WeeklyAutomation.closeWeekAndCompile c5Store).1.weeks = [⟨1, 202405, "compiled"⟩]
    ∧ (WeeklyAutomation.closeWeekAndCompile c5Store).2.success = true := by
  decide

/-- C6. At a store with one open week, one submission and one active member,
the trace of closeWeekAndCompile sets the week to compiled strictly before the
per-member streak update runs: the intermediate state after the third event is
compiled while the streak update of the active member has not yet run,
contradicting the required ordering. -/
theorem c6_compiled_before_streak_updates :
    (WeeklyAutomation.closeWeekAndCompile c6Store).1.trace =
      [Event.setWeekStatus 1 "closed",
       Event.emailSent "weeklyCompilation" "member@example.com",
       Event.setWeekStatus 1 "compiled",
       Event.streakUpdate 1 true] := by
  decide

lemma countOpenWeeks_weekUpdateStatus_le (s : Store) (id : Nat) (st : String)
    (h : (st == "open") = false) :
    countOpenWeeks (weekUpdateStatus s id st) ≤ countOpenWeeks s := by
  simp only [countOpenWeeks, weekUpdateStatus, ← List.countP_eq_length_filter, List.countP_map]
  apply List.countP_mono_left
  intro w _ hw
  simp only [Function.comp] at hw
  by_cases hid : w.id = id
  · rw [if_pos hid] at hw
    simp only at hw
    rw [hw] at h
    cases h
  · rwa [if_neg hid] at hw

lemma updateUserStreakWA_weeks (s : Store) (u : User) (st : Option UserStreak)
    (wn : Nat) (d : Bool) :
    (WeeklyAutomation.updateUserStreak s u st wn d).weeks = s.weeks := by
  unfold WeeklyAutomation.updateUserStreak
  cases st with
  | none => rfl
  | some streak =>
    rw [apply_ite Store.weeks]
    simp [appendEmail]

lemma foldl_updateUserStreakWA_weeks (wn : Nat) (ids : List Nat) :
    ∀ (l : List (User × Option UserStreak)) (acc : Store),
      (l.foldl (fun acc p =>
        WeeklyAutomation.updateUserStreak acc p.1 p.2 wn (ids.contains p.1.id)) acc).weeks
        = acc.weeks := by
  intro l
  induction l with
  | nil => intro acc; rfl
  | cons p t ih =>
    intro acc
    rw [List.foldl_cons, ih, updateUserStreakWA_weeks]

lemma countOpenWeeks_updateAllUserStreaks (s : Store) (wn : Nat) (subs : List Submission) :
    countOpenWeeks (WeeklyAutomation.updateAllUserStreaks s wn subs) = countOpenWeeks s := by
  simp only [countOpenWeeks]
  congr 1
  congr 1
  exact foldl_updateUserStreakWA_weeks wn (subs.map (fun sub => sub.userId)) _ s

/-- C7. The single-open-cycle invariant: openCycle, closeCycle and
manualCompile all preserve at-most-one-open; openCycle fails with the
conflict error and leaves the store untouched when an open cycle exists, and
creates exactly one open cycle otherwise. -/
theorem c7_single_open_cycle (s : Store) (wn : Nat) (wid : Option Nat) :
    (atMostOneOpen s → atMostOneOpen (WeeklyAutomation.startNewWeek s wn).1)
    ∧ (atMostOneOpen s → atMostOneOpen (WeeklyAutomation.closeWeekAndCompile s).1)
    ∧ (atMostOneOpen s → atMostOneOpen (WeeklyAutomation.manualCompileWeek s wid).1)
    ∧ ((∃ w ∈ s.weeks, w.status = "open") →
        WeeklyAutomation.startNewWeek s wn = (s, ⟨false, some "Week already open"⟩))
    ∧ (findOpenWeek s = none →
        countOpenWeeks (WeeklyAutomation.startNewWeek s wn).1 = 1) := by
  have hopen : findOpenWeek s = none →
      (s.weeks.filter (fun w => w.status == "open")) = [] := by
    intro h
    rw [List.filter_eq_nil_iff]
    intro w hw
    rw [findOpenWeek, List.find?_eq_none] at h
    exact fun hc => h w hw hc
  have hnew : findOpenWeek s = none →
      countOpenWeeks (WeeklyAutomation.startNewWeek s wn).1 = 1 := by
    intro h
    simp only [WeeklyAutomation.startNewWeek, h]
    simp only [countOpenWeeks, List.filter_append, hopen h]
    simp
  have hclose : atMostOneOpen s → atMostOneOpen (WeeklyAutomation.closeWeekAndCompile s).1 := by
    intro hinv
    unfold WeeklyAutomation.closeWeekAndCompile
    cases hfo : findOpenWeek s with
    | none => exact hinv
    | some w =>
      dsimp only
      split
      · exact le_trans (countOpenWeeks_weekUpdateStatus_le _ _ _ (by decide))
          (le_trans (countOpenWeeks_weekUpdateStatus_le _ _ _ (by decide)) hinv)
      · unfold atMostOneOpen
        rw [countOpenWeeks_updateAllUserStreaks]
        exact le_trans (countOpenWeeks_weekUpdateStatus_le _ _ _ (by decide))
          (le_trans (countOpenWeeks_weekUpdateStatus_le s w.id "closed" (by decide)) hinv)
  refine ⟨?_, hclose, ?_, ?_, hnew⟩
  · intro hinv
    cases hfo : findOpenWeek s with
    | some w =>
      unfold WeeklyAutomation.startNewWeek
      rw [hfo]
      exact hinv
    | none =>
      have h1 := hnew hfo
      unfold atMostOneOpen
      omega
  · intro hinv
    unfold WeeklyAutomation.manualCompileWeek
    cases wid with
    | none => exact hclose hinv
    | some id =>
      dsimp only
      cases hfw : s.weeks.find? (fun w => w.id == id) with
      | none => exact hinv
      | some week =>
        dsimp only
        split
        · exact hinv
        · split
          · exact le_trans (countOpenWeeks_weekUpdateStatus_le _ _ _ (by decide)) hinv
          · exact le_trans (countOpenWeeks_weekUpdateStatus_le _ _ _ (by decide)) hinv
  · intro ⟨w, hmem, hst⟩
    have hs : (findOpenWeek s).isSome := by
      rw [findOpenWeek, List.find?_isSome]
      exact ⟨w, hmem, by simp [hst]⟩
    unfold WeeklyAutomation.startNewWeek
    cases hfo : findOpenWeek s with
    | none => rw [hfo] at hs; cases hs
    | some w' => rfl

theorem c7_witness :
    atMostOneOpen ((⟨[], [], [], [], [], 0, 0, []⟩ : Store)) ∧
    atMostOneOpen (WeeklyAutomation.startNewWeek (⟨[], [], [], [], [], 0, 0, []⟩ : Store) 202401).1 :=
  ⟨by unfold atMostOneOpen; decide,
   (c7_single_open_cycle ⟨[], [], [], [], [], 0, 0, []⟩ 202401 none).1
     (by unfold atMostOneOpen; decide)⟩

lemma updateUserStreakWA_trace_mono (s : Store) (u : User) (st : Option UserStreak)
    (wn : Nat) (d : Bool) (e : Event) (he : e ∈ s.trace) :
    e ∈ (WeeklyAutomation.updateUserStreak s u st wn d).trace := by
  unfold WeeklyAutomation.updateUserStreak
  cases st with
  | none => exact List.mem_append_left _ he
  | some streak =>
    dsimp only
    split_ifs <;> simp only [appendEmail] <;>
      first
        | exact List.mem_append_left _ (List.mem_append_left _ he)
        | exact List.mem_append_left _ he

lemma updateUserStreakWA_trace_self (s : Store) (u : User) (st : Option UserStreak)
    (wn : Nat) (d : Bool) :
    Event.streakUpdate u.id d ∈ (WeeklyAutomation.updateUserStreak s u st wn d).trace := by
  unfold WeeklyAutomation.updateUserStreak
  cases st with
  | none => exact List.mem_append_right _ (List.mem_cons_self _ _)
  | some streak =>
    dsimp only
    split_ifs <;> simp only [appendEmail] <;>
      first
        | exact List.mem_append_left _ (List.mem_append_right _ (List.mem_cons_self _ _))
        | exact List.mem_append_right _ (List.mem_cons_self _ _)

lemma updateAllUserStreaks_weeks_eq (s : Store) (wn : Nat) (subs : List Submission) :
    (WeeklyAutomation.updateAllUserStreaks s wn subs).weeks = s.weeks := by
  unfold WeeklyAutomation.updateAllUserStreaks
  exact foldl_updateUserStreakWA_weeks wn (subs.map (fun sub => sub.userId)) _ s

lemma status_mem_map_update (l : List Week) (id : Nat) (st : String) :
    ∀ wk ∈ l.map (fun w => if w.id = id then { w with status := st } else w),
      wk.id = id → wk.status = st := by
  intro wk hwk hid
  rcases List.mem_map.mp hwk with ⟨x, hx, rfl⟩
  by_cases h : x.id = id
  · simp [h]
  · rw [if_neg h] at hid ⊢
    exact absurd hid h

lemma trace_mem_foldl_updateWA (wn : Nat) (ids : List Nat) :
    ∀ (l : List (User × Option UserStreak)) (acc : Store) (e : Event), e ∈ acc.trace →
      e ∈ ((l.foldl (fun acc p =>
        WeeklyAutomation.updateUserStreak acc p.1 p.2 wn (ids.contains p.1.id)) acc)).trace := by
  intro l
  induction l with
  | nil => intro acc e he; exact he
  | cons q t ih =>
    intro acc e he
    rw [List.foldl_cons]
    exact ih _ e (updateUserStreakWA_trace_mono _ _ _ _ _ e he)

lemma streakUpdate_mem_foldl_updateWA (wn : Nat) (ids : List Nat) :
    ∀ (l : List (User × Option UserStreak)) (acc : Store) (u : User) (st : Option UserStreak),
      (u, st) ∈ l →
      Event.streakUpdate u.id (ids.contains u.id) ∈ ((l.foldl (fun acc p =>
        WeeklyAutomation.updateUserStreak acc p.1 p.2 wn (ids.contains p.1.id)) acc)).trace := by
  intro l
  induction l with
  | nil => intro acc u st h; cases h
  | cons q t ih =>
    intro acc u st h
    rw [List.foldl_cons]
    rcases List.mem_cons.mp h with heq | ht
    · rw [← heq]
      exact trace_mem_foldl_updateWA wn ids t _ _
        (updateUserStreakWA_trace_self _ _ _ _ _)
    · exact ih _ u st ht

/-- C5 amended. With an open cycle present, closeCycle always leaves that
cycle compiled; when the cycle has at least one submission the per-member
streak update runs for every active member with didSubmit reflecting whether
the member submitted; when it has zero submissions no streak update runs at
all (the streak list is untouched and the trace gains only the two status
writes). -/
theorem c5_close_cycle_amended (s : Store) (w : Week) (h : findOpenWeek s = some w) :
    (∀ wk ∈ (WeeklyAutomation.closeWeekAndCompile s).1.weeks, wk.id = w.id → wk.status = "compiled")
    ∧ ((s.submissions.filter (fun sub => sub.weekId == w.id)) = [] →
        (WeeklyAutomation.closeWeekAndCompile s).1.streaks = s.streaks
        ∧ (WeeklyAutomation.closeWeekAndCompile s).1.trace =
            s.trace ++ [Event.setWeekStatus w.id "closed", Event.setWeekStatus w.id "compiled"])
    ∧ ((s.submissions.filter (fun sub => sub.weekId == w.id)) ≠ [] →
        ∀ u ∈ s.users, u.isActive = true →
          Event.streakUpdate u.id
            (((s.submissions.filter (fun sub => sub.weekId == w.id)).map (fun sub => sub.userId)).contains u.id)
            ∈ (WeeklyAutomation.closeWeekAndCompile s).1.trace) := by
  unfold WeeklyAutomation.closeWeekAndCompile
  rw [h]
  dsimp only
  by_cases hz : (s.submissions.filter (fun sub => sub.weekId == w.id)) = []
  · rw [if_pos (by rw [hz]; rfl)]
    refine ⟨?_, fun _ => ⟨rfl, by simp [weekUpdateStatus]⟩, fun hne => absurd hz hne⟩
    exact status_mem_map_update _ w.id "compiled"
  · rw [if_neg (by simp [List.isEmpty_iff, hz])]
    refine ⟨?_, fun he => absurd he hz, ?_⟩
    · rw [updateAllUserStreaks_weeks_eq]
      exact status_mem_map_update _ w.id "compiled"
    · intro _ u hu hact
      unfold WeeklyAutomation.updateAllUserStreaks
      apply streakUpdate_mem_foldl_updateWA
      exact List.mem_map.mpr ⟨u, List.mem_filter.mpr ⟨hu, hact⟩, rfl⟩

theorem c5_amended_witness :
    (List.filter (fun sub => sub.weekId == (1 : Nat)) c5SubStore.submissions ≠ []) ∧
    Event.streakUpdate 1 true ∈ (WeeklyAutomation.closeWeekAndCompile c5SubStore).1.trace :=
  ⟨by decide,
   (c5_close_cycle_amended c5SubStore ⟨1, 202405, "open"⟩ (by decide)).2.2
     (by decide) ⟨1, "member@example.com", true, 0⟩ (by decide) rfl⟩

lemma updateUserStreakEP_preserves (s : Store) (uid wn : Nat) :
    (EmailProcessor.updateUserStreak s uid wn).users = s.users
    ∧ (EmailProcessor.updateUserStreak s uid wn).weeks = s.weeks
    ∧ (EmailProcessor.updateUserStreak s uid wn).submissions = s.submissions := by
  unfold EmailProcessor.updateUserStreak
  cases findStreak s uid with
  | none => exact ⟨rfl, rfl, rfl⟩
  | some st =>
    dsimp only
    split_ifs <;>
      first
        | exact ⟨rfl, rfl, rfl⟩
        | (cases findUserById s uid <;> simp [appendEmail])

lemma findUserByEmail_eq_of_users (s s' : Store) (h : s'.users = s.users) (e : String) :
    findUserByEmail s' e = findUserByEmail s e := by
  simp [findUserByEmail, h]

lemma findCurrentWeek_eq_of_weeks (s s' : Store) (h : s'.weeks = s.weeks) :
    findCurrentWeek s' = findCurrentWeek s := by
  simp [findCurrentWeek, h]

/-- C8. Calling the submission intake twice for the same member and the same
open cycle: the first call succeeds and stores the submission; the second call
fails with the duplicate error before touching the store beyond an error
notice, the submission list is unchanged by the failed call, and the store
ends with exactly one submission row for the (member, cycle) pair. -/
theorem c8_accept_submission_duplicate
    (parse : String → ParsedSubmission) (s : Store) (sender body : String)
    (u : User) (w : Week) (data : SubmissionData)
    (hu : findUserByEmail s sender = some u)
    (hact : u.isActive = true)
    (hw : findCurrentWeek s = some w)
    (hno : findSubmission s u.id w.id = none)
    (hdata : validateSubmissionFormat (parse body) = some data) :
    (EmailProcessor.processInboundEmail parse s (some sender) body).2.success = true
    ∧ (EmailProcessor.processInboundEmail parse
        (EmailProcessor.processInboundEmail parse s (some sender) body).1 (some sender) body).2
        = ⟨false, some "Already submitted"⟩
    ∧ (EmailProcessor.processInboundEmail parse
        (EmailProcessor.processInboundEmail parse s (some sender) body).1 (some sender) body).1.submissions
        = (EmailProcessor.processInboundEmail parse s (some sender) body).1.submissions
    ∧ ((EmailProcessor.processInboundEmail parse
        (EmailProcessor.processInboundEmail parse s (some sender) body).1 (some sender) body).1.submissions.filter
          (fun sub => sub.userId == u.id && sub.weekId == w.id)).length = 1 := by
  have key1 : EmailProcessor.processInboundEmail parse s (some sender) body =
      (appendEmail (EmailProcessor.updateUserStreak
          { s with submissions := s.submissions ++
              [⟨u.id, w.id, data.recommendation, data.reasonWhy, data.digressions⟩] }
          u.id w.weekNumber) "submissionConfirmation" sender,
       ⟨true, none⟩) := by
    simp only [EmailProcessor.processInboundEmail, hu, hact, hw, hno, hdata, Bool.not_true,
      Bool.false_eq_true, if_false]
  have hpres := updateUserStreakEP_preserves
    { s with submissions := s.submissions ++
        [⟨u.id, w.id, data.recommendation, data.reasonWhy, data.digressions⟩] }
    u.id w.weekNumber
  have hus : (appendEmail (EmailProcessor.updateUserStreak
      { s with submissions := s.submissions ++
          [⟨u.id, w.id, data.recommendation, data.reasonWhy, data.digressions⟩] }
      u.id w.weekNumber) "submissionConfirmation" sender).users = s.users := by
    simpa only [appendEmail] using hpres.1
  have hws : (appendEmail (EmailProcessor.updateUserStreak
      { s with submissions := s.submissions ++
          [⟨u.id, w.id, data.recommendation, data.reasonWhy, data.digressions⟩] }
      u.id w.weekNumber) "submissionConfirmation" sender).weeks = s.weeks := by
    simpa only [appendEmail] using hpres.2.1
  have hsubs : (appendEmail (EmailProcessor.updateUserStreak
      { s with submissions := s.submissions ++
          [⟨u.id, w.id, data.recommendation, data.reasonWhy, data.digressions⟩] }
      u.id w.weekNumber) "submissionConfirmation" sender).submissions
      = s.submissions ++ [⟨u.id, w.id, data.recommendation, data.reasonWhy, data.digressions⟩] := by
    simpa only [appendEmail] using hpres.2.2
  have hnofind : s.submissions.find? (fun sub => sub.userId == u.id && sub.weekId == w.id) = none := hno
  have hfs : findSubmission (appendEmail (EmailProcessor.updateUserStreak
      { s with submissions := s.submissions ++
          [⟨u.id, w.id, data.recommendation, data.reasonWhy, data.digressions⟩] }
      u.id w.weekNumber) "submissionConfirmation" sender) u.id w.id
      = some ⟨u.id, w.id, data.recommendation, data.reasonWhy, data.digressions⟩ := by
    simp only [findSubmission, hsubs, List.find?_append, hnofind]
    simp
  have key2 : EmailProcessor.processInboundEmail parse (appendEmail (EmailProcessor.updateUserStreak
      { s with submissions := s.submissions ++
          [⟨u.id, w.id, data.recommendation, data.reasonWhy, data.digressions⟩] }
      u.id w.weekNumber) "submissionConfirmation" sender) (some sender) body =
      (appendEmail (appendEmail (EmailProcessor.updateUserStreak
        { s with submissions := s.submissions ++
            [⟨u.id, w.id, data.recommendation, data.reasonWhy, data.digressions⟩] }
        u.id w.weekNumber) "submissionConfirmation" sender) "errorEmail" sender,
       ⟨false, some "Already submitted"⟩) := by
    simp only [EmailProcessor.processInboundEmail,
      findUserByEmail_eq_of_users s _ hus, hu,
      findCurrentWeek_eq_of_weeks s _ hws, hw, hfs, hact, Bool.not_true,
      Bool.false_eq_true, if_false]
  have hfilnil : s.submissions.filter (fun sub => sub.userId == u.id && sub.weekId == w.id) = [] := by
    rw [List.filter_eq_nil_iff]
    intro a ha
    have := List.find?_eq_none.mp hnofind a ha
    simpa using this
  rw [key1]
  dsimp only
  rw [key2]
  refine ⟨rfl, rfl, by simp [appendEmail], ?_⟩
  dsimp only
  simp only [appendEmail]
  rw [hpres.2.2]
  dsimp only
  rw [List.filter_append, hfilnil]
  simp


theorem c8_witness :
    (EmailProcessor.processInboundEmail fixedParse c8Store (some "membereight@example.com") "b").2.success = true
    ∧ (EmailProcessor.processInboundEmail fixedParse
        (EmailProcessor.processInboundEmail fixedParse c8Store (some "membereight@example.com") "b").1
        (some "membereight@example.com") "b").2 = ⟨false, some "Already submitted"⟩ :=
  ⟨(c8_accept_submission_duplicate fixedParse c8Store "membereight@example.com" "b"
      ⟨1, "membereight@example.com", true, 0⟩ ⟨1, 202401, "open"⟩ ⟨"abcdef", "abcdefghijk", "abcdef"⟩
      (by decide) rfl (by decide) rfl (by decide)).1,
   (c8_accept_submission_duplicate fixedParse c8Store "membereight@example.com" "b"
      ⟨1, "membereight@example.com", true, 0⟩ ⟨1, 202401, "open"⟩ ⟨"abcdef", "abcdefghijk", "abcdef"⟩
      (by decide) rfl (by decide) rfl (by decide)).2.1⟩

lemma findInviteByToken_updateInvite (s : Store) (token : String) (inv : Invite)
    (f : Invite → Invite) (h : findInviteByToken s token = some inv)
    (hf : ∀ i, (f i).inviteToken = i.inviteToken) :
    findInviteByToken (updateInvite s inv.id f) token = some (f inv) := by
  have h' : s.invites.find? (fun i => i.inviteToken == token) = some inv := h
  show (s.invites.map (fun i => if i.id = inv.id then f i else i)).find?
      (fun i => i.inviteToken == token) = some (f inv)
  rw [List.find?_map]
  have hp : ((fun i : Invite => i.inviteToken == token)
        ∘ (fun i => if i.id = inv.id then f i else i))
      = (fun i : Invite => i.inviteToken == token) := by
    funext i
    by_cases hid : i.id = inv.id
    · simp [Function.comp, hid, hf]
    · simp [Function.comp, hid]
  rw [hp, h']
  simp

/-- C9. Behaviour of invitation acceptance on every input state: unknown
tokens fail with the not-found error; non-pending invitations fail with the
already-processed error; pending invitations past expiry transition to
expired and fail; a pending unexpired invitation whose invitee is already a
member transitions to accepted without creating a member and fails with the
already-member error; otherwise a new active member and a zero streak record
are created, the invitation transitions to accepted, and the result carries
the new member and the inviter reference. -/
theorem c9_accept_invitation (s : Store) (token : String) :
    (findInviteByToken s token = none →
      InvitationService.processInviteAcceptance s token
        = (s, ⟨false, some "Invalid invitation link", none, none⟩))
    ∧ (∀ inv, findInviteByToken s token = some inv →
        (¬ inv.status = "pending" →
          InvitationService.processInviteAcceptance s token
            = (s, ⟨false, some "Invitation already processed", none, none⟩))
        ∧ (inv.status = "pending" → inv.expiresAt < s.now →
            (InvitationService.processInviteAcceptance s token).2
              = ⟨false, some "Invitation has expired", none, none⟩
            ∧ findInviteByToken (InvitationService.processInviteAcceptance s token).1 token
              = some { inv with status := "expired" }
            ∧ (InvitationService.processInviteAcceptance s token).1.users = s.users)
        ∧ (inv.status = "pending" → ¬ inv.expiresAt < s.now →
            (findUserByEmail s inv.inviteeEmail).isSome = true →
            (InvitationService.processInviteAcceptance s token).2
              = ⟨false, some "User already exists", none, none⟩
            ∧ findInviteByToken (InvitationService.processInviteAcceptance s token).1 token
              = some { inv with status := "accepted", acceptedAt := some s.now }
            ∧ (InvitationService.processInviteAcceptance s token).1.users = s.users)
        ∧ (inv.status = "pending" → ¬ inv.expiresAt < s.now →
            findUserByEmail s inv.inviteeEmail = none →
            (InvitationService.processInviteAcceptance s token).2
              = ⟨true, none, some s.nextId, some inv.inviterId⟩
            ∧ (InvitationService.processInviteAcceptance s token).1.users
              = s.users ++ [⟨s.nextId, inv.inviteeEmail, true, 0⟩]
            ∧ (InvitationService.processInviteAcceptance s token).1.streaks
              = s.streaks ++ [⟨s.nextId, 0, 0, none, false, none⟩]
            ∧ findInviteByToken (InvitationService.processInviteAcceptance s token).1 token
              = some { inv with status := "accepted", acceptedAt := some s.now })) := by
  constructor
  · intro h
    simp only [InvitationService.processInviteAcceptance, h]
  · intro inv hinv
    refine ⟨?_, ?_, ?_, ?_⟩
    · intro hnp
      have hcond : (inv.status != "pending") = true := by simp [bne_iff_ne, hnp]
      simp only [InvitationService.processInviteAcceptance, hinv, hcond, if_true]
    · intro hp hexp
      have hcond : (inv.status != "pending") = false := by simp [bne_iff_ne, hp]
      have key : InvitationService.processInviteAcceptance s token
          = (updateInvite s inv.id (fun i => { i with status := "expired" }),
             ⟨false, some "Invitation has expired", none, none⟩) := by
        simp only [InvitationService.processInviteAcceptance, hinv, hcond,
          Bool.false_eq_true, if_false, if_pos hexp]
      rw [key]
      exact ⟨rfl,
        findInviteByToken_updateInvite s token inv _ hinv (fun i => rfl),
        rfl⟩
    · intro hp hexp hsome
      have hcond : (inv.status != "pending") = false := by simp [bne_iff_ne, hp]
      rcases Option.isSome_iff_exists.mp hsome with ⟨u', hu'⟩
      have key : InvitationService.processInviteAcceptance s token
          = (updateInvite s inv.id (fun i =>
                { i with status := "accepted", acceptedAt := some s.now }),
             ⟨false, some "User already exists", none, none⟩) := by
        simp only [InvitationService.processInviteAcceptance, hinv, hcond,
          Bool.false_eq_true, if_false, if_neg hexp, hu']
      rw [key]
      exact ⟨rfl,
        findInviteByToken_updateInvite s token inv _ hinv (fun i => rfl),
        rfl⟩
    · intro hp hexp hnone
      have hcond : (inv.status != "pending") = false := by simp [bne_iff_ne, hp]
      have key : InvitationService.processInviteAcceptance s token
          = (updateInvite
              { s with
                users := s.users ++ [⟨s.nextId, inv.inviteeEmail, true, 0⟩],
                nextId := s.nextId + 1,
                streaks := s.streaks ++ [⟨s.nextId, 0, 0, none, false, none⟩] }
              inv.id (fun i => { i with status := "accepted", acceptedAt := some s.now }),
             ⟨true, none, some s.nextId, some inv.inviterId⟩) := by
        simp only [InvitationService.processInviteAcceptance, hinv, hcond,
          Bool.false_eq_true, if_false, if_neg hexp, hnone]
      rw [key]
      refine ⟨rfl, rfl, rfl, ?_⟩
      have hinv2 : findInviteByToken
          { s with
            users := s.users ++ [⟨s.nextId, inv.inviteeEmail, true, 0⟩],
            nextId := s.nextId + 1,
            streaks := s.streaks ++ [⟨s.nextId, 0, 0, none, false, none⟩] } token
          = some inv := hinv
      exact findInviteByToken_updateInvite _ token inv _ hinv2 (fun i => rfl)


theorem c9_witness :
    (InvitationService.processInviteAcceptance c9Store "tokA").2
      = ⟨false, some "Invitation has expired", none, none⟩
    ∧ findInviteByToken (InvitationService.processInviteAcceptance c9Store "tokA").1 "tokA"
      = some ⟨1, 2, "invitee@example.com", "tokA", "expired", 50, none⟩ :=
  have h := ((c9_accept_invitation c9Store "tokA").2
    ⟨1, 2, "invitee@example.com", "tokA", "pending", 50, none⟩ (by decide)).2.1 rfl (by decide)
  ⟨h.1, h.2.1⟩


lemma sendInvitation_submissions (s : Store) (iid : Nat) (e : String) :
    (InvitationService.sendInvitation s iid e).1.submissions = s.submissions := by
  unfold InvitationService.sendInvitation
  dsimp only
  repeat' split
  all_goals rfl

lemma processInviteCommand_submissions (s : Store) (fromEmail inviteeEmail : String) :
    (InvitationService.processInviteCommand s fromEmail inviteeEmail).1.submissions
      = s.submissions := by
  unfold InvitationService.processInviteCommand
  cases findUserByEmail s fromEmail with
  | none => rfl
  | some inviter =>
    dsimp only
    show (InvitationService.sendInvitation s inviter.id inviteeEmail).1.submissions = s.submissions
    exact sendInvitation_submissions s inviter.id inviteeEmail

/-- C10. Whenever the body of an inbound email matches the INVITE command
pattern, the webhook route handles the email exclusively through the
invitation processor: the submission list is untouched, the result is never
tagged as a submission, and the outcome is independent of the submission
parser (the parser is not consulted) — even when the body also carries the
RECOMMENDATION, REASON WHY and DIGRESSIONS fields. -/
theorem c10_invite_command_routing (parse1 parse2 : String → ParsedSubmission)
    (s : Store) (sender : Option String) (body : String)
    (h : (InvitationService.parseInviteCommand body).isInviteCommand = true) :
    (Webhooks.handleOneEmail parse1 s sender body).1.submissions = s.submissions
    ∧ (Webhooks.handleOneEmail parse1 s sender body).2.routeType
        ≠ some Webhooks.RouteType.submission
    ∧ Webhooks.handleOneEmail parse1 s sender body
        = Webhooks.handleOneEmail parse2 s sender body := by
  cases sender with
  | none => exact ⟨rfl, by simp [Webhooks.handleOneEmail], rfl⟩
  | some se =>
    have key : ∀ parse : String → ParsedSubmission,
        Webhooks.handleOneEmail parse s (some se) body
        = ((InvitationService.processInviteCommand s se
              (InvitationService.parseInviteCommand body).email).1,
           ⟨(InvitationService.processInviteCommand s se
              (InvitationService.parseInviteCommand body).email).2.success,
            some Webhooks.RouteType.invite,
            (InvitationService.processInviteCommand s se
              (InvitationService.parseInviteCommand body).email).2.error⟩) := by
      intro parse
      simp only [Webhooks.handleOneEmail, h, if_true]
    rw [key parse1, key parse2]
    exact ⟨processInviteCommand_submissions s se
      (InvitationService.parseInviteCommand body).email, by simp, rfl⟩

theorem c10_witness :
    (InvitationService.parseInviteCommand c10Body).isInviteCommand = true
    ∧ (Webhooks.handleOneEmail fixedParse c10Store (some "member@example.com") c10Body).1.submissions
        = c10Store.submissions :=
  ⟨by decide,
   (c10_invite_command_routing fixedParse fixedParse c10Store
     (some "member@example.com") c10Body (by decide)).1⟩

/-- C3. The dual-branch adjacency test: over well-formed cycle identifiers
(year times 100 plus a week component between 1 and 53) the function returns
true exactly when the cycles are in the same year with the second the
numeric successor, or the year rolls over from week 52 or 53 to week 1;
and the three concrete instances of the claim hold. -/
theorem c3_are_adjacent :
    (∀ ya wa yb wb : Nat, 1 ≤ wa → wa ≤ 53 → 1 ≤ wb → wb ≤ 53 →
      (WeeklyAutomation.isConsecutiveWeek (some (ya * 100 + wa)) (yb * 100 + wb) = true ↔
        ((ya = yb ∧ yb * 100 + wb = ya * 100 + wa + 1)
         ∨ (yb = ya + 1 ∧ (wa = 52 ∨ wa = 53) ∧ wb = 1))))
    ∧ WeeklyAutomation.isConsecutiveWeek (some 202452) 202501 = true
    ∧ WeeklyAutomation.isConsecutiveWeek (some 202451) 202501 = false
    ∧ WeeklyAutomation.isConsecutiveWeek (some 202452) 202453 = true := by
  refine ⟨?_, by decide, by decide, by decide⟩
  intro ya wa yb wb hwa1 hwa2 hwb1 hwb2
  simp only [WeeklyAutomation.isConsecutiveWeek]
  have h0 : ¬(ya * 100 + wa = 0) := by omega
  have h1 : (ya * 100 + wa) / 100 = ya := by omega
  have h2 : (ya * 100 + wa) % 100 = wa := by omega
  have h3 : (yb * 100 + wb) / 100 = yb := by omega
  have h4 : (yb * 100 + wb) % 100 = wb := by omega
  rw [if_neg h0, h1, h2, h3, h4]
  split_ifs with hyy hys
  · simp only [decide_eq_true_eq]
    constructor
    · intro h; exact Or.inl ⟨hyy, by omega⟩
    · rintro (⟨he, hb⟩ | ⟨he, hw, hb⟩) <;> omega
  · simp only [Bool.and_eq_true, decide_eq_true_eq]
    constructor
    · rintro ⟨h52, h1b⟩; exact Or.inr ⟨hys, by omega, h1b⟩
    · rintro (⟨he, hb⟩ | ⟨he, hw, hb⟩)
      · omega
      · exact ⟨by omega, hb⟩
  · constructor
    · intro h; cases h
    · rintro (⟨he, hb⟩ | ⟨he, hw, hb⟩) <;> omega

theorem c3_witness :
    WeeklyAutomation.isConsecutiveWeek (some (2024 * 100 + 52)) (2025 * 100 + 1) = true :=
  (c3_are_adjacent.1 2024 52 2025 1 (by norm_num) (by norm_num) (by norm_num) (by norm_num)).mpr
    (Or.inr ⟨rfl, Or.inl rfl, rfl⟩)
